import Mathlib

/-!
Shallow embedding of the CHIP-8 interpreter from this repository
(class `Chip8`, files chip8.hpp / chip8.cpp).

Machine integers are modelled as `Nat` with explicit `% 2^w` at the
write sites where the C++ code truncates (uint8/uint16 conversions).
Array fields of the C++ class become total functions `Nat → Nat`
(respectively `Nat → Bool` for the keyboard); the indices actually used
by the code are the in-range ones.  Out-of-bounds accesses to the
4096-byte `memory` array are undefined behaviour in the C++; the
embedding totalizes them with an explicit bounds guard (`memByte`,
`memWrite`: a read outside bounds yields 0, a write outside bounds is
dropped), and claim C10 shows the guard's out-of-bounds branch is
reachable.  Paths on which the C++ process terminates via `std::exit`
are modelled as `none`.
-/

namespace Chip8Emu

/-- Pointwise update of a function, modelling a C++ array element assignment. -/
def updFn (f : Nat → Nat) (i v : Nat) : Nat → Nat :=
  fun j => if j = i then v else f j

/-- Write the bytes of a list into consecutive addresses starting at `k`,
modelling the byte-copy loops of the constructor (font) and `loadRom`. -/
def writeListAt (m : Nat → Nat) : List Nat → Nat → (Nat → Nat)
  | [], _ => m
  | b :: bs, k => writeListAt (updFn m k b) bs (k + 1)

/-- Constant from chip8.hpp. -/
def PROGRAM_START_ADDRESS : Nat := 0x200

/-- Constant from chip8.hpp. -/
def FONTSET_START_ADDRESS : Nat := 0x50

/-- Constant from chip8.hpp. -/
def MEMORY_SIZE : Nat := 4096

/-- The 80-byte font table `chip8Font::fontset`. -/
def fontset : List Nat :=
  [0xF0, 0x90, 0x90, 0x90, 0xF0,
   0x20, 0x60, 0x20, 0x20, 0x70,
   0xF0, 0x10, 0xF0, 0x80, 0xF0,
   0xF0, 0x10, 0xF0, 0x10, 0xF0,
   0x90, 0x90, 0xF0, 0x10, 0x10,
   0xF0, 0x80, 0xF0, 0x10, 0xF0,
   0xF0, 0x80, 0xF0, 0x90, 0xF0,
   0xF0, 0x10, 0x20, 0x40, 0x40,
   0xF0, 0x90, 0xF0, 0x90, 0xF0,
   0xF0, 0x90, 0xF0, 0x10, 0xF0,
   0xF0, 0x90, 0xF0, 0x90, 0x90,
   0xE0, 0x90, 0xE0, 0x90, 0xE0,
   0xF0, 0x80, 0x80, 0x80, 0xF0,
   0xE0, 0x90, 0x90, 0x90, 0xE0,
   0xF0, 0x80, 0xF0, 0x80, 0xF0,
   0xF0, 0x80, 0xF0, 0x80, 0x80]

/-- The interpreter state: the data members of class `Chip8` in chip8.hpp. -/
structure Chip8 where
  registers : Nat → Nat
  memory : Nat → Nat
  stack : Nat → Nat
  I : Nat
  PC : Nat
  SP : Nat
  delayTimer : Nat
  soundTimer : Nat
  framebuffer : Nat → Nat
  keyboard : Nat → Bool
  updateDisplayFlag : Bool
  pressedKey : Int
  rng : Nat

/-- Modelled from the spec: the `rng` member is a `std::mt19937`
deterministic pseudo-random generator; the Mersenne Twister
implementation lives in the C++ standard library, outside this
repository, so it is modelled abstractly as a fixed deterministic step
function on a seed state, returning the drawn value and the successor
state.  Only its determinism matters to the claims. -/
def rngStep (seed : Nat) : Nat × Nat :=
  let n := (6364136223846793005 * seed + 1442695040888963407) % 2 ^ 64
  (n, n)

/-- The constructor `Chip8::Chip8`: zero all arrays, `PC = 0x200`,
seed the RNG with the literal 42, default-initialize `pressedKey = -1`
and `updateDisplayFlag = false`, copy the font into memory at 0x50. -/
def chip8Init : Chip8 where
  registers := fun _ => 0
  memory := writeListAt (fun _ => 0) fontset FONTSET_START_ADDRESS
  stack := fun _ => 0
  I := 0
  PC := PROGRAM_START_ADDRESS
  SP := 0
  delayTimer := 0
  soundTimer := 0
  framebuffer := fun _ => 0
  keyboard := fun _ => false
  updateDisplayFlag := false
  pressedKey := -1
  rng := 42

/-- Totalized read of the 4096-byte `memory` array: the C++ code performs
no bounds check (out of bounds is UB); the embedding returns 0 there. -/
def memByte (s : Chip8) (a : Nat) : Nat :=
  if a < MEMORY_SIZE then s.memory a else 0

/-- Totalized write to the 4096-byte `memory` array: the C++ code performs
no bounds check (out of bounds is UB); the embedding drops the write. -/
def memWrite (m : Nat → Nat) (a v : Nat) : Nat → Nat :=
  if a < MEMORY_SIZE then updFn m a v else m

/-- Chip8::fetchOpCode: `(memory[PC] << 8) | memory[PC + 1]`. -/
def fetchOpCode (s : Chip8) : Nat :=
  ((memByte s s.PC) <<< 8) ||| memByte s (s.PC + 1)

/-- The ascending scan `for key in 0..15: if keyboard[key] break` of
opcode Fx0A: first pressed key index, or -1 when none is pressed. -/
def firstPressed (kb : Nat → Bool) : Int :=
  match (List.range 16).find? kb with
  | some k => (k : Int)
  | none => -1

/-- The destination framebuffer index of one sprite pixel: the source's
`px = (xPos + bit) % 64`, `py = (yPos + row) % 32`, `idx = py * 64 + px`. -/
def drwIdx (xPos yPos row bit : Nat) : Nat :=
  ((yPos + row) % 32) * 64 + (xPos + bit) % 64

/-- Body of the innermost DRW loop (one sprite bit): if the bit is set,
wrap the pixel position toroidally, record a collision in VF when the
destination pixel is set, and XOR the destination pixel. -/
def drwBitStep (xPos yPos row sprite bit : Nat) (s : Chip8) : Chip8 :=
  if sprite &&& (0x80 >>> bit) ≠ 0 then
    { s with registers := if s.framebuffer (drwIdx xPos yPos row bit) ≠ 0 then updFn s.registers 15 1 else s.registers, framebuffer := updFn s.framebuffer (drwIdx xPos yPos row bit) (s.framebuffer (drwIdx xPos yPos row bit) ^^^ 1) }
  else s

/-- The inner DRW loop: process sprite bits `0, 1, …, n-1` in ascending
order, as the C++ `for (bit = 0; bit < 8; bit++)` does for `n = 8`. -/
def drwBits (xPos yPos row sprite : Nat) : Nat → Chip8 → Chip8
  | 0, s => s
  | n + 1, s => drwBitStep xPos yPos row sprite n (drwBits xPos yPos row sprite n s)

/-- The outer DRW loop: process rows `0, 1, …, n-1` in ascending order;
each row reads its sprite byte at `memory[I + row]` from the current state. -/
def drwRows (xPos yPos : Nat) : Nat → Chip8 → Chip8
  | 0, s => s
  | n + 1, s =>
    let s1 := drwRows xPos yPos n s
    drwBits xPos yPos n (memByte s1 (s1.I + n)) 8 s1

/-- The Fx55 loop `for i in 0..=x: memory[I + i] = registers[i]`, written
as the memory after the first `n` iterations (the loop mutates only
`memory`, so registers and `I` are read from the unchanged state). -/
def storeRegsAux (s : Chip8) : Nat → (Nat → Nat)
  | 0 => s.memory
  | n + 1 => memWrite (storeRegsAux s n) (s.I + n) (s.registers n)

/-- The Fx65 loop `for i in 0..=x: registers[i] = memory[I + i]`, written
as the register file after the first `n` iterations. -/
def loadRegsAux (s : Chip8) : Nat → (Nat → Nat)
  | 0 => s.registers
  | n + 1 => updFn (loadRegsAux s n) n (memByte s (s.I + n))

/-- The Fx0A (LD Vx, K) block of Chip8::execute: latch the first pressed
key when none is latched; when a key is latched and released, complete by
writing it to Vx and clearing the latch; otherwise roll `PC` back by 2
(uint16 wrap) so the instruction repeats on the next cycle. -/
def waitKeyStep (s : Chip8) (x : Nat) : Chip8 :=
  if (if s.pressedKey = -1 then firstPressed s.keyboard else s.pressedKey) ≠ -1 ∧ s.keyboard (if s.pressedKey = -1 then firstPressed s.keyboard else s.pressedKey).toNat = false then
    { s with registers := updFn s.registers x (if s.pressedKey = -1 then firstPressed s.keyboard else s.pressedKey).toNat, pressedKey := -1 }
  else
    { s with pressedKey := (if s.pressedKey = -1 then firstPressed s.keyboard else s.pressedKey), PC := (s.PC + 65534) % 65536 }

/-- Chip8::execute, one branch per mask test in the source order; the
local variables of the C++ blocks (`x`, `y`, `byte`, `sum`, …) are
inlined at their use sites.  `none` models the paths that call
`std::exit(1)` (RET on an empty stack, CALL on a full stack,
unimplemented opcode). -/
def execute (s : Chip8) (opcode : Nat) : Option Chip8 :=
  if opcode = 0x00E0 then
    some { s with framebuffer := fun _ => 0, updateDisplayFlag := true }
  else if opcode = 0x00EE then
    if s.SP = 0 then none
    else some { s with SP := s.SP - 1, PC := s.stack (s.SP - 1) }
  else if opcode &&& 0xF000 = 0x0000 then
    some s
  else if opcode &&& 0xF000 = 0x1000 then
    some { s with PC := opcode &&& 0x0FFF }
  else if opcode &&& 0xF000 = 0x2000 then
    if 16 ≤ s.SP then none
    else some { s with stack := updFn s.stack s.SP s.PC, SP := s.SP + 1, PC := opcode &&& 0x0FFF }
  else if opcode &&& 0xF000 = 0x3000 then
    if s.registers ((opcode &&& 0x0F00) >>> 8) = opcode &&& 0x00FF then
      some { s with PC := (s.PC + 2) % 65536 }
    else some s
  else if opcode &&& 0xF000 = 0x4000 then
    if s.registers ((opcode &&& 0x0F00) >>> 8) ≠ opcode &&& 0x00FF then
      some { s with PC := (s.PC + 2) % 65536 }
    else some s
  else if opcode &&& 0xF00F = 0x5000 then
    if s.registers ((opcode &&& 0x0F00) >>> 8) = s.registers ((opcode &&& 0x00F0) >>> 4) then
      some { s with PC := (s.PC + 2) % 65536 }
    else some s
  else if opcode &&& 0xF000 = 0x6000 then
    some { s with registers := updFn s.registers ((opcode &&& 0x0F00) >>> 8) (opcode &&& 0x00FF) }
  else if opcode &&& 0xF000 = 0x7000 then
    some { s with registers := updFn s.registers ((opcode &&& 0x0F00) >>> 8) ((s.registers ((opcode &&& 0x0F00) >>> 8) + (opcode &&& 0x00FF)) % 256) }
  else if opcode &&& 0xF00F = 0x8000 then
    some { s with registers := updFn s.registers ((opcode &&& 0x0F00) >>> 8) (s.registers ((opcode &&& 0x00F0) >>> 4)) }
  else if opcode &&& 0xF00F = 0x8001 then
    some { s with registers := updFn s.registers ((opcode &&& 0x0F00) >>> 8) (s.registers ((opcode &&& 0x0F00) >>> 8) ||| s.registers ((opcode &&& 0x00F0) >>> 4)) }
  else if opcode &&& 0xF00F = 0x8002 then
    some { s with registers := updFn s.registers ((opcode &&& 0x0F00) >>> 8) (s.registers ((opcode &&& 0x0F00) >>> 8) &&& s.registers ((opcode &&& 0x00F0) >>> 4)) }
  else if opcode &&& 0xF00F = 0x8003 then
    some { s with registers := updFn s.registers ((opcode &&& 0x0F00) >>> 8) (s.registers ((opcode &&& 0x0F00) >>> 8) ^^^ s.registers ((opcode &&& 0x00F0) >>> 4)) }
  else if opcode &&& 0xF00F = 0x8004 then
    some { s with registers := updFn (updFn s.registers 15 (if 0xFF < s.registers ((opcode &&& 0x0F00) >>> 8) + s.registers ((opcode &&& 0x00F0) >>> 4) then 1 else 0)) ((opcode &&& 0x0F00) >>> 8) ((s.registers ((opcode &&& 0x0F00) >>> 8) + s.registers ((opcode &&& 0x00F0) >>> 4)) &&& 0xFF) }
  else if opcode &&& 0xF00F = 0x8005 then
    some { s with registers := updFn (updFn s.registers 15 (if s.registers ((opcode &&& 0x00F0) >>> 4) ≤ s.registers ((opcode &&& 0x0F00) >>> 8) then 1 else 0)) ((opcode &&& 0x0F00) >>> 8) ((256 + s.registers ((opcode &&& 0x0F00) >>> 8) - s.registers ((opcode &&& 0x00F0) >>> 4)) % 256) }
  else if opcode &&& 0xF00F = 0x8006 then
    some { s with registers := updFn (updFn s.registers 15 (if s.registers ((opcode &&& 0x0F00) >>> 8) &&& 1 = 1 then 1 else 0)) ((opcode &&& 0x0F00) >>> 8) (s.registers ((opcode &&& 0x0F00) >>> 8) >>> 1) }
  else if opcode &&& 0xF00F = 0x8007 then
    some { s with registers := updFn (updFn s.registers 15 (if s.registers ((opcode &&& 0x0F00) >>> 8) ≤ s.registers ((opcode &&& 0x00F0) >>> 4) then 1 else 0)) ((opcode &&& 0x0F00) >>> 8) ((256 + s.registers ((opcode &&& 0x00F0) >>> 4) - s.registers ((opcode &&& 0x0F00) >>> 8)) % 256) }
  else if opcode &&& 0xF00F = 0x800E then
    some { s with registers := updFn (updFn s.registers 15 (if 0 < s.registers ((opcode &&& 0x0F00) >>> 8) &&& 128 then 1 else 0)) ((opcode &&& 0x0F00) >>> 8) ((s.registers ((opcode &&& 0x0F00) >>> 8) <<< 1) % 256) }
  else if opcode &&& 0xF00F = 0x9000 then
    if s.registers ((opcode &&& 0x0F00) >>> 8) ≠ s.registers ((opcode &&& 0x00F0) >>> 4) then
      some { s with PC := (s.PC + 2) % 65536 }
    else some s
  else if opcode &&& 0xF000 = 0xA000 then
    some { s with I := opcode &&& 0x0FFF }
  else if opcode &&& 0xF000 = 0xB000 then
    some { s with PC := (s.registers 0 + (opcode &&& 0x0FFF)) % 65536 }
  else if opcode &&& 0xF000 = 0xC000 then
    some { s with registers := updFn s.registers ((opcode &&& 0x0F00) >>> 8) (((rngStep s.rng).1 % 256) &&& (opcode &&& 0x00FF)), rng := (rngStep s.rng).2 }
  else if opcode &&& 0xF000 = 0xD000 then
    some { drwRows (s.registers ((opcode &&& 0x0F00) >>> 8)) (s.registers ((opcode &&& 0x00F0) >>> 4)) (opcode &&& 0x000F) { s with registers := updFn s.registers 15 0 } with updateDisplayFlag := true }
  else if opcode &&& 0xF0FF = 0xE09E then
    if s.keyboard (s.registers ((opcode &&& 0x0F00) >>> 8) &&& 0x0F) then
      some { s with PC := (s.PC + 2) % 65536 }
    else some s
  else if opcode &&& 0xF0FF = 0xE0A1 then
    if s.keyboard (s.registers ((opcode &&& 0x0F00) >>> 8) &&& 0x0F) = false then
      some { s with PC := (s.PC + 2) % 65536 }
    else some s
  else if opcode &&& 0xF0FF = 0xF007 then
    some { s with registers := updFn s.registers ((opcode &&& 0x0F00) >>> 8) s.delayTimer }
  else if opcode &&& 0xF0FF = 0xF00A then
    some (waitKeyStep s ((opcode &&& 0x0F00) >>> 8))
  else if opcode &&& 0xF0FF = 0xF015 then
    some { s with delayTimer := s.registers ((opcode &&& 0x0F00) >>> 8) }
  else if opcode &&& 0xF0FF = 0xF018 then
    some { s with soundTimer := s.registers ((opcode &&& 0x0F00) >>> 8) }
  else if opcode &&& 0xF0FF = 0xF01E then
    some { s with I := (s.I + s.registers ((opcode &&& 0x0F00) >>> 8)) % 65536 }
  else if opcode &&& 0xF0FF = 0xF029 then
    some { s with I := (FONTSET_START_ADDRESS + s.registers ((opcode &&& 0x0F00) >>> 8) * 5) % 65536 }
  else if opcode &&& 0xF0FF = 0xF033 then
    some { s with memory := memWrite (memWrite (memWrite s.memory s.I (s.registers ((opcode &&& 0x0F00) >>> 8) / 100)) (s.I + 1) (s.registers ((opcode &&& 0x0F00) >>> 8) / 10 % 10)) (s.I + 2) (s.registers ((opcode &&& 0x0F00) >>> 8) % 10) }
  else if opcode &&& 0xF0FF = 0xF055 then
    some { s with memory := storeRegsAux s (((opcode &&& 0x0F00) >>> 8) + 1) }
  else if opcode &&& 0xF0FF = 0xF065 then
    some { s with registers := loadRegsAux s (((opcode &&& 0x0F00) >>> 8) + 1) }
  else
    none

/-- Chip8::tick: decrement each timer when it is above 0 (the two source
statements touch disjoint fields, so they are written as one update). -/
def tick (s : Chip8) : Chip8 :=
  { s with
    delayTimer := if 0 < s.delayTimer then s.delayTimer - 1 else s.delayTimer
    soundTimer := if 0 < s.soundTimer then s.soundTimer - 1 else s.soundTimer }

/-- Chip8::cycle: fetch the opcode at `PC`, advance `PC` by 2
(unconditionally, before dispatch), then execute. -/
def cycle (s : Chip8) : Option Chip8 :=
  execute { s with PC := (s.PC + 2) % 65536 } (fetchOpCode s)

/-- Chip8::loadRom, with the file-system boundary made explicit: `none`
models a file that cannot be opened, `some rom` a file holding the byte
list `rom`.  The returned Bool is the C++ functions return value. -/
def loadRom (s : Chip8) (file : Option (List Nat)) : Bool × Chip8 :=
  match file with
  | none => (false, s)
  | some rom =>
    if MEMORY_SIZE - PROGRAM_START_ADDRESS < rom.length then (false, s)
    else (true, { s with memory := writeListAt s.memory rom PROGRAM_START_ADDRESS })

/-- One driver step for the determinism claim: the driver writes the
frame's keyboard state into the interpreter, then executes one opcode. -/
def runSteps (s : Chip8) : List (Nat × (Nat → Bool)) → Option Chip8
  | [] => some s
  | (op, kb) :: rest =>
    match execute { s with keyboard := kb } op with
    | none => none
    | some s1 => runSteps s1 rest

/-- Execute a list of opcodes in order (reachability of a state by a
straight-line instruction sequence). -/
def runOpcodes (s : Chip8) : List Nat → Option Chip8
  | [] => some s
  | op :: rest =>
    match execute s op with
    | none => none
    | some s1 => runOpcodes s1 rest

/-- The three memory addresses written by opcode Fx33 (BCD). -/
def fx33Addrs (s : Chip8) : List Nat := [s.I, s.I + 1, s.I + 2]

/-- The memory addresses touched by the Fx55 / Fx65 loops, `I..I+x`. -/
def fx55Addrs (s : Chip8) (x : Nat) : List Nat :=
  (List.range (x + 1)).map (fun i => s.I + i)

/-- The memory addresses of the sprite bytes read by Dxyn, `I..I+height-1`. -/
def drwAddrs (s : Chip8) (height : Nat) : List Nat :=
  (List.range height).map (fun r => s.I + r)

/-! ## C10: unchecked I-indexed memory accesses -/

/-- Claim C10: the I-indexed accesses carry no bounds check: the BCD writes of
Fx33, the register dump/load loops of Fx55/Fx65, and the sprite reads of
Dxyn stay inside the 4096-byte memory exactly when `I` plus the highest
accessed offset is at most 0xFFF; and because Fx1E adds to `I` without
correction, a state violating that precondition for Fx33 is reachable
from the freshly constructed interpreter by a three-opcode program, on
which the totalized embedding takes its out-of-bounds branch (the
guarded writes are dropped, leaving memory unchanged). -/
theorem no_memory_bounds_check :
    (∀ s : Chip8, (∀ a ∈ fx33Addrs s, a < 4096) ↔ s.I + 2 ≤ 0xFFF) ∧
    (∀ (s : Chip8) (x : Nat), (∀ a ∈ fx55Addrs s x, a < 4096) ↔ s.I + x ≤ 0xFFF) ∧
    (∀ (s : Chip8) (height : Nat), 0 < height →
      ((∀ a ∈ drwAddrs s height, a < 4096) ↔ s.I + (height - 1) ≤ 0xFFF)) ∧
    (∃ s : Chip8, runOpcodes chip8Init [0xAFFF, 0x60FF, 0xF01E] = some s ∧
      (∀ a ∈ fx33Addrs s, 4096 ≤ a) ∧
      ∃ s1, execute s 0xF033 = some s1 ∧ s1.memory = s.memory) := by
  refine ⟨?_, ?_, ?_, ?_⟩
  · intro s
    simp only [fx33Addrs, List.mem_cons, List.not_mem_nil, or_false, forall_eq_or_imp,
      forall_eq]
    omega
  · intro s x
    constructor
    · intro h
      have hx := h (s.I + x) (List.mem_map.mpr ⟨x, List.mem_range.mpr (by omega), rfl⟩)
      omega
    · intro h a ha
      obtain ⟨i, hi, rfl⟩ := List.mem_map.mp ha
      have := List.mem_range.mp hi
      omega
  · intro s height hh
    constructor
    · intro h
      have hx := h (s.I + (height - 1))
        (List.mem_map.mpr ⟨height - 1, List.mem_range.mpr (by omega), rfl⟩)
      omega
    · intro h a ha
      obtain ⟨i, hi, rfl⟩ := List.mem_map.mp ha
      have := List.mem_range.mp hi
      omega
  · exact ⟨_, rfl, by decide, _, rfl, rfl⟩

/-- Witness for claim C10: the in-bounds characterizations applied at the fresh
interpreter state, where `I = 0`. -/
theorem no_memory_bounds_check_witness :
    (∀ a ∈ fx33Addrs chip8Init, a < 4096) ∧
    (∀ a ∈ fx55Addrs chip8Init 15, a < 4096) ∧
    (∀ a ∈ drwAddrs chip8Init 15, a < 4096) := by
  refine ⟨(no_memory_bounds_check.1 chip8Init).mpr (by decide),
    ((no_memory_bounds_check.2.1 chip8Init 15)).mpr (by decide),
    ((no_memory_bounds_check.2.2.1 chip8Init 15 (by decide))).mpr (by decide)⟩

/-! ## Helper lemmas -/

theorem updFn_same (f : Nat → Nat) (i v : Nat) : updFn f i v i = v := by
  simp [updFn]

theorem updFn_ne (f : Nat → Nat) (i v : Nat) {j : Nat} (h : j ≠ i) :
    updFn f i v j = f j := by
  simp [updFn, h]

theorem writeListAt_eq (l : List Nat) : ∀ (m : Nat → Nat) (k a : Nat),
    writeListAt m l k a =
      if k ≤ a ∧ a < k + l.length then l.getD (a - k) 0 else m a := by
  induction l with
  | nil =>
    intro m k a
    simp only [writeListAt, List.length_nil, Nat.add_zero]
    rw [if_neg (by omega)]
  | cons b bs ih =>
    intro m k a
    rw [writeListAt, ih]
    by_cases h1 : k + 1 ≤ a ∧ a < k + 1 + bs.length
    · rw [if_pos h1, if_pos (by simp only [List.length_cons]; omega)]
      have h2 : a - k = (a - (k + 1)) + 1 := by omega
      rw [h2, List.getD_cons_succ]
    · rw [if_neg h1]
      unfold updFn
      by_cases h2 : a = k
      · subst h2
        rw [if_pos rfl, if_pos (by simp only [List.length_cons]; omega)]
        simp
      · rw [if_neg h2, if_neg (by simp only [List.length_cons]; push_neg at h1 ⊢; omega)]

/-! ## C8: timer decay -/

theorem tick_delayTimer (s : Chip8) : (tick s).delayTimer = s.delayTimer - 1 := by
  show (if 0 < s.delayTimer then s.delayTimer - 1 else s.delayTimer) = s.delayTimer - 1
  split_ifs <;> omega

theorem tick_soundTimer (s : Chip8) : (tick s).soundTimer = s.soundTimer - 1 := by
  show (if 0 < s.soundTimer then s.soundTimer - 1 else s.soundTimer) = s.soundTimer - 1
  split_ifs <;> omega

theorem tick_iter_delayTimer (s : Chip8) :
    ∀ n, (tick^[n] s).delayTimer = s.delayTimer - n := by
  intro n
  induction n generalizing s with
  | zero => simp
  | succ n ih =>
    rw [Function.iterate_succ_apply, ih, tick_delayTimer]
    omega

theorem tick_iter_soundTimer (s : Chip8) :
    ∀ n, (tick^[n] s).soundTimer = s.soundTimer - n := by
  intro n
  induction n generalizing s with
  | zero => simp
  | succ n ih =>
    rw [Function.iterate_succ_apply, ih, tick_soundTimer]
    omega

/-- Claim C8: tick() decrements delayTimer by exactly 1 when it is above 0 and
leaves it at 0 otherwise, and independently does the same for soundTimer;
under `n` repeated tick() calls each timer is the truncated difference
`initial - n`, hence never goes below 0. -/
theorem tick_timer_decay (s : Chip8) (n : Nat) :
    (0 < s.delayTimer → (tick s).delayTimer = s.delayTimer - 1) ∧
    (s.delayTimer = 0 → (tick s).delayTimer = 0) ∧
    (0 < s.soundTimer → (tick s).soundTimer = s.soundTimer - 1) ∧
    (s.soundTimer = 0 → (tick s).soundTimer = 0) ∧
    (tick^[n] s).delayTimer = s.delayTimer - n ∧
    (tick^[n] s).soundTimer = s.soundTimer - n := by
  refine ⟨fun _ => tick_delayTimer s, fun h => ?_, fun _ => tick_soundTimer s,
    fun h => ?_, tick_iter_delayTimer s n, tick_iter_soundTimer s n⟩
  · rw [tick_delayTimer, h]
  · rw [tick_soundTimer, h]

/-- Witness for claim C8: the theorem applied at a concrete state. -/
theorem tick_timer_decay_witness :
    (tick { chip8Init with delayTimer := 3, soundTimer := 1 }).delayTimer = 2 ∧
    (tick { chip8Init with delayTimer := 3, soundTimer := 1 }).soundTimer = 0 ∧
    (tick^[5] { chip8Init with delayTimer := 3, soundTimer := 1 }).soundTimer = 0 := by
  have h := tick_timer_decay { chip8Init with delayTimer := 3, soundTimer := 1 } 5
  exact ⟨by simpa using h.1 (by decide), by simpa using h.2.2.1 (by decide),
    by simpa using h.2.2.2.2.2⟩

/-! ## C1: ROM loading -/

/-- Claim C1: loading a rom of at most 3584 bytes succeeds, places its bytes
verbatim at 0x200..0x200+N-1 and leaves every other address untouched;
an oversized rom (more than 3584 bytes) or an unopenable file yields
failure with the state entirely unchanged. -/
theorem loadRom_spec :
    (∀ (s : Chip8) (rom : List Nat), rom.length ≤ 3584 →
      (loadRom s (some rom)).1 = true ∧
      (∀ i, i < rom.length →
        (loadRom s (some rom)).2.memory (0x200 + i) = rom.getD i 0) ∧
      (∀ a, a < 0x200 ∨ 0x200 + rom.length ≤ a →
        (loadRom s (some rom)).2.memory a = s.memory a)) ∧
    (∀ (s : Chip8) (rom : List Nat), 3584 < rom.length →
      loadRom s (some rom) = (false, s)) ∧
    (∀ s : Chip8, loadRom s none = (false, s)) := by
  refine ⟨?_, ?_, fun s => rfl⟩
  · intro s rom h
    have hc : ¬ (MEMORY_SIZE - PROGRAM_START_ADDRESS < rom.length) := by
      simp only [MEMORY_SIZE, PROGRAM_START_ADDRESS]
      omega
    simp only [loadRom, if_neg hc]
    refine ⟨by trivial, ?_, ?_⟩
    · intro i hi
      show writeListAt s.memory rom PROGRAM_START_ADDRESS (0x200 + i) = _
      rw [writeListAt_eq, if_pos (by simp only [PROGRAM_START_ADDRESS]; omega)]
      simp [PROGRAM_START_ADDRESS]
    · intro a ha
      show writeListAt s.memory rom PROGRAM_START_ADDRESS a = s.memory a
      rw [writeListAt_eq, if_neg (by simp only [PROGRAM_START_ADDRESS]; omega)]
  · intro s rom h
    have hc : MEMORY_SIZE - PROGRAM_START_ADDRESS < rom.length := by
      simp only [MEMORY_SIZE, PROGRAM_START_ADDRESS]
      omega
    simp only [loadRom, if_pos hc]

/-- Witness for claim C1: the theorem applied to a concrete two-byte rom. -/
theorem loadRom_spec_witness :
    (loadRom chip8Init (some [0xAB, 0xCD])).1 = true ∧
    (loadRom chip8Init (some [0xAB, 0xCD])).2.memory 0x200 = 0xAB ∧
    (loadRom chip8Init (some [0xAB, 0xCD])).2.memory 0x201 = 0xCD ∧
    (loadRom chip8Init (some [0xAB, 0xCD])).2.memory 0x202 = chip8Init.memory 0x202 := by
  have h := loadRom_spec.1 chip8Init [0xAB, 0xCD] (by decide)
  refine ⟨h.1, ?_, ?_, ?_⟩
  · have := h.2.1 0 (by decide)
    simpa using this
  · have := h.2.1 1 (by decide)
    simpa using this
  · exact h.2.2 0x202 (by decide)

/-! ## C2: stack pointer invariant -/

theorem drwBitStep_SP (xPos yPos row sprite bit : Nat) (s : Chip8) :
    (drwBitStep xPos yPos row sprite bit s).SP = s.SP := by
  unfold drwBitStep
  split <;> rfl

theorem drwBits_SP (xPos yPos row sprite : Nat) :
    ∀ (n : Nat) (s : Chip8), (drwBits xPos yPos row sprite n s).SP = s.SP := by
  intro n
  induction n with
  | zero => intro s; rfl
  | succ n ih =>
    intro s
    show (drwBitStep xPos yPos row sprite n (drwBits xPos yPos row sprite n s)).SP = s.SP
    rw [drwBitStep_SP, ih]

theorem waitKeyStep_SP (s : Chip8) (x : Nat) : (waitKeyStep s x).SP = s.SP := by
  unfold waitKeyStep
  repeat' split
  all_goals rfl

theorem drwRows_SP (xPos yPos : Nat) :
    ∀ (n : Nat) (s : Chip8), (drwRows xPos yPos n s).SP = s.SP := by
  intro n
  induction n with
  | zero => intro s; rfl
  | succ n ih =>
    intro s
    show (drwBits xPos yPos n _ 8 (drwRows xPos yPos n s)).SP = s.SP
    rw [drwBits_SP, ih]

/-- Claim C2: `0 ≤ SP ≤ 16` is an interpreter invariant: SP is 0 after
construction; every execute step that returns preserves `SP ≤ 16`
(`SP` is a `Nat`, so `0 ≤ SP` holds by type); RET with `SP = 0` and
CALL with `SP ≥ 16` yield `none`, the model of fatal process exit. -/
theorem sp_invariant :
    chip8Init.SP = 0 ∧
    (∀ (s : Chip8) (opcode : Nat) (s1 : Chip8),
      s.SP ≤ 16 → execute s opcode = some s1 → s1.SP ≤ 16) ∧
    (∀ s : Chip8, s.SP = 0 → execute s 0x00EE = none) ∧
    (∀ (s : Chip8) (opcode : Nat),
      opcode &&& 0xF000 = 0x2000 → 16 ≤ s.SP → execute s opcode = none) := by
  refine ⟨rfl, ?_, ?_, ?_⟩
  · intro s opcode s1 hSP hex
    unfold execute at hex
    by_cases c1 : opcode = 0x00E0
    · rw [if_pos c1] at hex
      obtain rfl := Option.some.inj hex
      exact hSP
    rw [if_neg c1] at hex
    by_cases c2 : opcode = 0x00EE
    · rw [if_pos c2] at hex
      split at hex
      · exact Option.noConfusion hex
      · obtain rfl := Option.some.inj hex
        show s.SP - 1 ≤ 16
        omega
    rw [if_neg c2] at hex
    by_cases c3 : opcode &&& 0xF000 = 0x0000
    · rw [if_pos c3] at hex
      obtain rfl := Option.some.inj hex
      exact hSP
    rw [if_neg c3] at hex
    by_cases c4 : opcode &&& 0xF000 = 0x1000
    · rw [if_pos c4] at hex
      obtain rfl := Option.some.inj hex
      exact hSP
    rw [if_neg c4] at hex
    by_cases c5 : opcode &&& 0xF000 = 0x2000
    · rw [if_pos c5] at hex
      split at hex
      · exact Option.noConfusion hex
      · obtain rfl := Option.some.inj hex
        show s.SP + 1 ≤ 16
        omega
    rw [if_neg c5] at hex
    by_cases c6 : opcode &&& 0xF000 = 0x3000
    · rw [if_pos c6] at hex
      split at hex <;> (obtain rfl := Option.some.inj hex; exact hSP)
    rw [if_neg c6] at hex
    by_cases c7 : opcode &&& 0xF000 = 0x4000
    · rw [if_pos c7] at hex
      split at hex <;> (obtain rfl := Option.some.inj hex; exact hSP)
    rw [if_neg c7] at hex
    by_cases c8 : opcode &&& 0xF00F = 0x5000
    · rw [if_pos c8] at hex
      split at hex <;> (obtain rfl := Option.some.inj hex; exact hSP)
    rw [if_neg c8] at hex
    by_cases c9 : opcode &&& 0xF000 = 0x6000
    · rw [if_pos c9] at hex
      obtain rfl := Option.some.inj hex
      exact hSP
    rw [if_neg c9] at hex
    by_cases c10 : opcode &&& 0xF000 = 0x7000
    · rw [if_pos c10] at hex
      obtain rfl := Option.some.inj hex
      exact hSP
    rw [if_neg c10] at hex
    by_cases c11 : opcode &&& 0xF00F = 0x8000
    · rw [if_pos c11] at hex
      obtain rfl := Option.some.inj hex
      exact hSP
    rw [if_neg c11] at hex
    by_cases c12 : opcode &&& 0xF00F = 0x8001
    · rw [if_pos c12] at hex
      obtain rfl := Option.some.inj hex
      exact hSP
    rw [if_neg c12] at hex
    by_cases c13 : opcode &&& 0xF00F = 0x8002
    · rw [if_pos c13] at hex
      obtain rfl := Option.some.inj hex
      exact hSP
    rw [if_neg c13] at hex
    by_cases c14 : opcode &&& 0xF00F = 0x8003
    · rw [if_pos c14] at hex
      obtain rfl := Option.some.inj hex
      exact hSP
    rw [if_neg c14] at hex
    by_cases c15 : opcode &&& 0xF00F = 0x8004
    · rw [if_pos c15] at hex
      obtain rfl := Option.some.inj hex
      exact hSP
    rw [if_neg c15] at hex
    by_cases c16 : opcode &&& 0xF00F = 0x8005
    · rw [if_pos c16] at hex
      obtain rfl := Option.some.inj hex
      exact hSP
    rw [if_neg c16] at hex
    by_cases c17 : opcode &&& 0xF00F = 0x8006
    · rw [if_pos c17] at hex
      obtain rfl := Option.some.inj hex
      exact hSP
    rw [if_neg c17] at hex
    by_cases c18 : opcode &&& 0xF00F = 0x8007
    · rw [if_pos c18] at hex
      obtain rfl := Option.some.inj hex
      exact hSP
    rw [if_neg c18] at hex
    by_cases c19 : opcode &&& 0xF00F = 0x800E
    · rw [if_pos c19] at hex
      obtain rfl := Option.some.inj hex
      exact hSP
    rw [if_neg c19] at hex
    by_cases c20 : opcode &&& 0xF00F = 0x9000
    · rw [if_pos c20] at hex
      split at hex <;> (obtain rfl := Option.some.inj hex; exact hSP)
    rw [if_neg c20] at hex
    by_cases c21 : opcode &&& 0xF000 = 0xA000
    · rw [if_pos c21] at hex
      obtain rfl := Option.some.inj hex
      exact hSP
    rw [if_neg c21] at hex
    by_cases c22 : opcode &&& 0xF000 = 0xB000
    · rw [if_pos c22] at hex
      obtain rfl := Option.some.inj hex
      exact hSP
    rw [if_neg c22] at hex
    by_cases c23 : opcode &&& 0xF000 = 0xC000
    · rw [if_pos c23] at hex
      obtain rfl := Option.some.inj hex
      exact hSP
    rw [if_neg c23] at hex
    by_cases c24 : opcode &&& 0xF000 = 0xD000
    · rw [if_pos c24] at hex
      obtain rfl := Option.some.inj hex
      show (drwRows _ _ _ _).SP ≤ 16
      rw [drwRows_SP]
      exact hSP
    rw [if_neg c24] at hex
    by_cases c25 : opcode &&& 0xF0FF = 0xE09E
    · rw [if_pos c25] at hex
      split at hex <;> (obtain rfl := Option.some.inj hex; exact hSP)
    rw [if_neg c25] at hex
    by_cases c26 : opcode &&& 0xF0FF = 0xE0A1
    · rw [if_pos c26] at hex
      split at hex <;> (obtain rfl := Option.some.inj hex; exact hSP)
    rw [if_neg c26] at hex
    by_cases c27 : opcode &&& 0xF0FF = 0xF007
    · rw [if_pos c27] at hex
      obtain rfl := Option.some.inj hex
      exact hSP
    rw [if_neg c27] at hex
    by_cases c28 : opcode &&& 0xF0FF = 0xF00A
    · rw [if_pos c28] at hex
      obtain rfl := Option.some.inj hex
      show (waitKeyStep s _).SP ≤ 16
      rw [waitKeyStep_SP]
      exact hSP
    rw [if_neg c28] at hex
    by_cases c29 : opcode &&& 0xF0FF = 0xF015
    · rw [if_pos c29] at hex
      obtain rfl := Option.some.inj hex
      exact hSP
    rw [if_neg c29] at hex
    by_cases c30 : opcode &&& 0xF0FF = 0xF018
    · rw [if_pos c30] at hex
      obtain rfl := Option.some.inj hex
      exact hSP
    rw [if_neg c30] at hex
    by_cases c31 : opcode &&& 0xF0FF = 0xF01E
    · rw [if_pos c31] at hex
      obtain rfl := Option.some.inj hex
      exact hSP
    rw [if_neg c31] at hex
    by_cases c32 : opcode &&& 0xF0FF = 0xF029
    · rw [if_pos c32] at hex
      obtain rfl := Option.some.inj hex
      exact hSP
    rw [if_neg c32] at hex
    by_cases c33 : opcode &&& 0xF0FF = 0xF033
    · rw [if_pos c33] at hex
      obtain rfl := Option.some.inj hex
      exact hSP
    rw [if_neg c33] at hex
    by_cases c34 : opcode &&& 0xF0FF = 0xF055
    · rw [if_pos c34] at hex
      obtain rfl := Option.some.inj hex
      exact hSP
    rw [if_neg c34] at hex
    by_cases c35 : opcode &&& 0xF0FF = 0xF065
    · rw [if_pos c35] at hex
      obtain rfl := Option.some.inj hex
      exact hSP
    rw [if_neg c35] at hex
    exact Option.noConfusion hex
  · intro s h
    unfold execute
    rw [if_neg (by decide), if_pos rfl, if_pos h]
  · intro s opcode h hsp
    unfold execute
    rw [if_neg (fun hop => by rw [hop] at h; exact absurd h (by decide)),
        if_neg (fun hop => by rw [hop] at h; exact absurd h (by decide)),
        if_neg (fun h0 => by rw [h0] at h; exact absurd h (by decide)),
        if_neg (fun h0 => by rw [h0] at h; exact absurd h (by decide)),
        if_pos h, if_pos hsp]

/-- Witness for claim C2: the theorem applied at concrete states — RET on an empty
stack and a 17th nested CALL both fault, and a CALL from `SP = 0` keeps
the invariant. -/
theorem sp_invariant_witness :
    execute chip8Init 0x00EE = none ∧
    execute { chip8Init with SP := 16 } 0x2300 = none ∧
    ∀ s1, execute chip8Init 0x2300 = some s1 → s1.SP ≤ 16 := by
  refine ⟨sp_invariant.2.2.1 chip8Init rfl,
          sp_invariant.2.2.2 { chip8Init with SP := 16 } 0x2300 (by decide) (by decide),
          fun s1 hE => sp_invariant.2.1 chip8Init 0x2300 s1 (by decide) hE⟩

/-! ## C5: ADD Vx, Vy with carry -/

theorem op8XY4_decode : ∀ X Y : Fin 16,
    (0x8000 + X.val * 256 + Y.val * 16 + 4) &&& 0xF000 = 0x8000 ∧
    (0x8000 + X.val * 256 + Y.val * 16 + 4) &&& 0xF00F = 0x8004 ∧
    ((0x8000 + X.val * 256 + Y.val * 16 + 4) &&& 0x0F00) >>> 8 = X.val ∧
    ((0x8000 + X.val * 256 + Y.val * 16 + 4) &&& 0x00F0) >>> 4 = Y.val := by
  decide

theorem land_255_eq_mod (n : Nat) : n &&& 255 = n % 256 := by
  simpa using Nat.and_pow_two_sub_one_eq_mod n 8

/-- Claim C5: opcode 0x8XY4 computes the full sum of Vx and Vy, writes the
carry flag (1 when the sum exceeds 255, else 0) to VF, then writes the
low byte of the sum to Vx; all other registers are unchanged.  When
X = 0xF the two writes alias and the later Vx write wins, so VF holds
the low byte of the sum, exactly as the sequential wording of the claim
prescribes. -/
theorem execute_add_carry (s : Chip8) (X Y : Fin 16)
    (hx : s.registers X.val < 256) (hy : s.registers Y.val < 256) :
    ∃ s1, execute s (0x8000 + X.val * 256 + Y.val * 16 + 4) = some s1 ∧
      s1.registers X.val = (s.registers X.val + s.registers Y.val) % 256 ∧
      (X.val ≠ 15 → s1.registers 15 =
        (if 255 < s.registers X.val + s.registers Y.val then 1 else 0)) ∧
      (∀ j, j ≠ X.val → j ≠ 15 → s1.registers j = s.registers j) := by
  obtain ⟨hF000, hF00F, hfx, hfy⟩ := op8XY4_decode X Y
  unfold execute
  rw [if_neg (fun h => by rw [h] at hF000; exact absurd hF000 (by decide)),
      if_neg (fun h => by rw [h] at hF000; exact absurd hF000 (by decide)),
      if_neg (fun h => by rw [hF000] at h; exact absurd h (by decide)),
      if_neg (fun h => by rw [hF000] at h; exact absurd h (by decide)),
      if_neg (fun h => by rw [hF000] at h; exact absurd h (by decide)),
      if_neg (fun h => by rw [hF000] at h; exact absurd h (by decide)),
      if_neg (fun h => by rw [hF000] at h; exact absurd h (by decide)),
      if_neg (fun h => by rw [hF00F] at h; exact absurd h (by decide)),
      if_neg (fun h => by rw [hF000] at h; exact absurd h (by decide)),
      if_neg (fun h => by rw [hF000] at h; exact absurd h (by decide)),
      if_neg (fun h => by rw [hF00F] at h; exact absurd h (by decide)),
      if_neg (fun h => by rw [hF00F] at h; exact absurd h (by decide)),
      if_neg (fun h => by rw [hF00F] at h; exact absurd h (by decide)),
      if_neg (fun h => by rw [hF00F] at h; exact absurd h (by decide)),
      if_pos hF00F, hfx, hfy]
  refine ⟨_, rfl, ?_, ?_, ?_⟩
  · show updFn (updFn s.registers 15 _) X.val _ X.val = _
    rw [updFn_same, land_255_eq_mod]
  · intro h15
    show updFn (updFn s.registers 15 _) X.val _ 15 = _
    rw [updFn_ne _ _ _ (fun hh => h15 hh.symm), updFn_same]
  · intro j hjX hj15
    show updFn (updFn s.registers 15 _) X.val _ j = _
    rw [updFn_ne _ _ _ hjX, updFn_ne _ _ _ hj15]

/-- Witness for claim C5: with V0 = 0xFF and V1 = 0x01, opcode 0x8014 yields
V0 = 0x00 and VF = 1. -/
theorem execute_add_carry_witness :
    ∃ s1, execute { chip8Init with
        registers := updFn (updFn chip8Init.registers 0 0xFF) 1 0x01 }
      (0x8000 + 0 * 256 + 1 * 16 + 4) = some s1 ∧
      s1.registers 0 = 0x00 ∧ s1.registers 15 = 1 := by
  obtain ⟨s1, hE, h1, h2, h3⟩ :=
    execute_add_carry { chip8Init with
        registers := updFn (updFn chip8Init.registers 0 0xFF) 1 0x01 }
      ⟨0, by decide⟩ ⟨1, by decide⟩ (by decide) (by decide)
  refine ⟨s1, hE, ?_, ?_⟩
  · rw [h1]
    decide
  · rw [h2 (by decide)]
    decide

/-! ## C7: CALL / RET round trip -/

theorem ret_restores (s2 : Chip8) (v : Nat) (hsp2 : ¬ s2.SP = 0)
    (hstk : s2.stack (s2.SP - 1) = v)
    (h3 : memByte s2 s2.PC = 0x00) (h4 : memByte s2 (s2.PC + 1) = 0xEE) :
    ∃ s3, cycle s2 = some s3 ∧ s3.PC = v ∧ s3.SP = s2.SP - 1 := by
  have hf2 : fetchOpCode s2 = 0x00EE := by
    unfold fetchOpCode
    rw [h3, h4]
    decide
  unfold cycle
  rw [hf2]
  unfold execute
  rw [if_neg (by decide), if_pos rfl, if_neg hsp2]
  exact ⟨_, rfl, hstk, rfl⟩

/-- Claim C7: from a state with `PC = 0x200`, `SP < 16` and opcode 0x2300 in
memory at PC, a cycle() pushes the return address 0x202 (the address
after the CALL) and jumps to 0x300; any later cycle() that executes
0x00EE from a state with the same SP and the same stack slot restores
`PC = 0x202` and the pre-call SP. -/
theorem call_ret_roundtrip (s : Chip8) (hsp : s.SP < 16) (hpc : s.PC = 0x200)
    (hb0 : memByte s s.PC = 0x23) (hb1 : memByte s (s.PC + 1) = 0x00) :
    ∃ s1, cycle s = some s1 ∧ s1.PC = 0x300 ∧ s1.SP = s.SP + 1 ∧
      s1.stack s.SP = 0x202 ∧
      (∀ s2 : Chip8, s2.SP = s1.SP → s2.stack s.SP = s1.stack s.SP →
        memByte s2 s2.PC = 0x00 → memByte s2 (s2.PC + 1) = 0xEE →
        ∃ s3, cycle s2 = some s3 ∧ s3.PC = 0x202 ∧ s3.SP = s.SP) := by
  have hf : fetchOpCode s = 0x2300 := by
    unfold fetchOpCode
    rw [hb0, hb1]
    decide
  have hstk : updFn s.stack s.SP ((s.PC + 2) % 65536) s.SP = 0x202 := by
    rw [updFn_same, hpc]
  unfold cycle
  rw [hf]
  unfold execute
  rw [if_neg (by decide), if_neg (by decide), if_neg (by decide),
      if_neg (by decide), if_pos (by decide : (0x2300 : Nat) &&& 0xF000 = 0x2000),
      if_neg (show ¬(16 ≤ s.SP) by omega)]
  refine ⟨_, rfl, rfl, rfl, hstk, ?_⟩
  intro s2 h1 h2 h3 h4
  have hsp2 : s2.SP = s.SP + 1 := by rw [h1]
  have hs2stk : s2.stack (s2.SP - 1) = 0x202 := by
    rw [hsp2]
    simp only [Nat.add_sub_cancel]
    exact h2.trans hstk
  obtain ⟨s3, hc, hp, hsp3⟩ := ret_restores s2 0x202 (by omega) hs2stk h3 h4
  exact ⟨s3, hc, hp, by omega⟩

/-- Witness for claim C7: the theorem applied at a concrete state holding CALL
0x300 at 0x200, followed by a RET from the called address. -/
theorem call_ret_roundtrip_witness :
    ∃ s1, cycle { chip8Init with
        memory := writeListAt chip8Init.memory [0x23, 0x00] 0x200 } = some s1 ∧
      s1.PC = 0x300 ∧ s1.SP = 1 := by
  obtain ⟨s1, hE, hPC, hSP, _, _⟩ :=
    call_ret_roundtrip { chip8Init with
        memory := writeListAt chip8Init.memory [0x23, 0x00] 0x200 }
      (by decide) (by decide) (by decide) (by decide)
  exact ⟨s1, hE, hPC, hSP⟩

/-! ## C6: keypress-wait state machine (Fx0A) -/

theorem firstPressed_none (kb : Nat → Bool) (h : ∀ k, k < 16 → kb k = false) :
    firstPressed kb = -1 := by
  unfold firstPressed
  have hn : (List.range 16).find? kb = none := by
    rw [List.find?_eq_none]
    intro x hx
    simp [h x (List.mem_range.mp hx)]
  rw [hn]

theorem firstPressed_least (kb : Nat → Bool) (k0 : Nat) (h0 : k0 < 16)
    (hk : kb k0 = true) (hmin : ∀ j, j < k0 → kb j = false) :
    firstPressed kb = (k0 : Int) := by
  have hr : List.range 16 = [0, 1, 2, 3, 4, 5, 6, 7, 8, 9, 10, 11, 12, 13, 14, 15] := by
    decide
  unfold firstPressed
  rw [hr]
  interval_cases k0 <;> simp_all [List.find?]

theorem opFX0A_decode : ∀ X : Fin 16,
    (0xF000 + X.val * 256 + 0x0A) &&& 0xF000 = 0xF000 ∧
    (0xF000 + X.val * 256 + 0x0A) &&& 0xF00F = 0xF00A ∧
    (0xF000 + X.val * 256 + 0x0A) &&& 0xF0FF = 0xF00A ∧
    ((0xF000 + X.val * 256 + 0x0A) &&& 0x0F00) >>> 8 = X.val ∧
    ((0xF0 + X.val) <<< 8) ||| 0x0A = 0xF000 + X.val * 256 + 0x0A := by
  decide

theorem waitKeyStep_none (t : Chip8) (x : Nat)
    (hp : t.pressedKey = -1) (hnone : ∀ k, k < 16 → t.keyboard k = false) :
    waitKeyStep t x = { t with pressedKey := -1, PC := (t.PC + 65534) % 65536 } := by
  have hfp := firstPressed_none t.keyboard hnone
  simp [waitKeyStep, hp, hfp]

theorem waitKeyStep_latch (t : Chip8) (x k0 : Nat) (h0 : k0 < 16)
    (hp : t.pressedKey = -1) (hk : t.keyboard k0 = true)
    (hmin : ∀ j, j < k0 → t.keyboard j = false) :
    waitKeyStep t x = { t with pressedKey := (k0 : Int), PC := (t.PC + 65534) % 65536 } := by
  have hfp := firstPressed_least t.keyboard k0 h0 hk hmin
  simp [waitKeyStep, hp, hfp, hk]

theorem waitKeyStep_complete (t : Chip8) (x k : Nat) (hk16 : k < 16)
    (hp : t.pressedKey = (k : Int)) (hrel : t.keyboard k = false) :
    waitKeyStep t x = { t with registers := updFn t.registers x k, pressedKey := -1 } := by
  simp [waitKeyStep, hp, (by omega : ¬((k : Int) = -1)), hrel]

/-- Claim C6: executing Fx0A through cycle() is a PC-rollback state machine:
with no key pressed and none latched, `PC` is left unchanged (advanced
then rolled back); with a key held and none latched, the lowest pressed
index is latched into `pressedKey` while `PC` is still rolled back; once
the latched key is released, the instruction completes, writing the
latched index into Vx, resetting `pressedKey` to -1, and leaving `PC`
advanced past the instruction. -/
theorem keypress_wait_machine (s : Chip8) (X : Fin 16) (hpcw : s.PC < 65536)
    (hb0 : memByte s s.PC = 0xF0 + X.val) (hb1 : memByte s (s.PC + 1) = 0x0A) :
    ((∀ k, k < 16 → s.keyboard k = false) → s.pressedKey = -1 →
      ∃ s1, cycle s = some s1 ∧ s1.PC = s.PC ∧ s1.pressedKey = -1 ∧
        s1.registers = s.registers) ∧
    (∀ k0 : Nat, k0 < 16 → s.keyboard k0 = true →
      (∀ j, j < k0 → s.keyboard j = false) → s.pressedKey = -1 →
      ∃ s1, cycle s = some s1 ∧ s1.PC = s.PC ∧ s1.pressedKey = (k0 : Int) ∧
        s1.registers = s.registers) ∧
    (∀ k : Nat, k < 16 → s.pressedKey = (k : Int) → s.keyboard k = false →
      ∃ s1, cycle s = some s1 ∧ s1.PC = (s.PC + 2) % 65536 ∧
        s1.pressedKey = -1 ∧ s1.registers X.val = k ∧
        (∀ j, j ≠ X.val → s1.registers j = s.registers j)) := by
  obtain ⟨hF000, hF00F, hF0FF, hfx, hfetch⟩ := opFX0A_decode X
  have hf : fetchOpCode s = 0xF000 + X.val * 256 + 0x0A := by
    unfold fetchOpCode
    rw [hb0, hb1]
    exact hfetch
  have hcyc : cycle s = some (waitKeyStep { s with PC := (s.PC + 2) % 65536 } X.val) := by
    unfold cycle
    rw [hf]
    unfold execute
    rw [if_neg (fun h => by rw [h] at hF000; exact absurd hF000 (by decide)),
        if_neg (fun h => by rw [h] at hF000; exact absurd hF000 (by decide)),
        if_neg (fun h => by rw [hF000] at h; exact absurd h (by decide)),
        if_neg (fun h => by rw [hF000] at h; exact absurd h (by decide)),
        if_neg (fun h => by rw [hF000] at h; exact absurd h (by decide)),
        if_neg (fun h => by rw [hF000] at h; exact absurd h (by decide)),
        if_neg (fun h => by rw [hF000] at h; exact absurd h (by decide)),
        if_neg (fun h => by rw [hF00F] at h; exact absurd h (by decide)),
        if_neg (fun h => by rw [hF000] at h; exact absurd h (by decide)),
        if_neg (fun h => by rw [hF000] at h; exact absurd h (by decide)),
        if_neg (fun h => by rw [hF00F] at h; exact absurd h (by decide)),
        if_neg (fun h => by rw [hF00F] at h; exact absurd h (by decide)),
        if_neg (fun h => by rw [hF00F] at h; exact absurd h (by decide)),
        if_neg (fun h => by rw [hF00F] at h; exact absurd h (by decide)),
        if_neg (fun h => by rw [hF00F] at h; exact absurd h (by decide)),
        if_neg (fun h => by rw [hF00F] at h; exact absurd h (by decide)),
        if_neg (fun h => by rw [hF00F] at h; exact absurd h (by decide)),
        if_neg (fun h => by rw [hF00F] at h; exact absurd h (by decide)),
        if_neg (fun h => by rw [hF00F] at h; exact absurd h (by decide)),
        if_neg (fun h => by rw [hF00F] at h; exact absurd h (by decide)),
        if_neg (fun h => by rw [hF000] at h; exact absurd h (by decide)),
        if_neg (fun h => by rw [hF000] at h; exact absurd h (by decide)),
        if_neg (fun h => by rw [hF000] at h; exact absurd h (by decide)),
        if_neg (fun h => by rw [hF000] at h; exact absurd h (by decide)),
        if_neg (fun h => by rw [hF0FF] at h; exact absurd h (by decide)),
        if_neg (fun h => by rw [hF0FF] at h; exact absurd h (by decide)),
        if_neg (fun h => by rw [hF0FF] at h; exact absurd h (by decide)),
        if_pos hF0FF, hfx]
  refine ⟨?_, ?_, ?_⟩
  · intro hnone hp
    rw [hcyc, waitKeyStep_none { s with PC := (s.PC + 2) % 65536 } X.val hp hnone]
    refine ⟨_, rfl, ?_, rfl, rfl⟩
    show (((s.PC + 2) % 65536) + 65534) % 65536 = s.PC
    omega
  · intro k0 h0 hk hmin hp
    rw [hcyc, waitKeyStep_latch { s with PC := (s.PC + 2) % 65536 } X.val k0 h0 hp hk hmin]
    refine ⟨_, rfl, ?_, rfl, rfl⟩
    show (((s.PC + 2) % 65536) + 65534) % 65536 = s.PC
    omega
  · intro k hk16 hp hrel
    rw [hcyc, waitKeyStep_complete { s with PC := (s.PC + 2) % 65536 } X.val k hk16 hp hrel]
    refine ⟨_, rfl, rfl, rfl, ?_, ?_⟩
    · show updFn s.registers X.val k X.val = k
      rw [updFn_same]
    · intro j hj
      show updFn s.registers X.val k j = s.registers j
      rw [updFn_ne _ _ _ hj]

/-- Witness for claim C6: the theorem applied at concrete states for all three
phases — nothing pressed, key 5 held, key 5 released after latching. -/
theorem keypress_wait_machine_witness :
    (∃ s1, cycle { chip8Init with
        memory := writeListAt chip8Init.memory [0xF0, 0x0A] 0x200 } = some s1 ∧
      s1.PC = 0x200 ∧ s1.pressedKey = -1) ∧
    (∃ s1, cycle { chip8Init with
        memory := writeListAt chip8Init.memory [0xF0, 0x0A] 0x200,
        keyboard := fun k => k == 5 } = some s1 ∧
      s1.PC = 0x200 ∧ s1.pressedKey = (5 : Int)) ∧
    (∃ s1, cycle { chip8Init with
        memory := writeListAt chip8Init.memory [0xF0, 0x0A] 0x200,
        pressedKey := (5 : Int) } = some s1 ∧
      s1.PC = 0x202 ∧ s1.pressedKey = -1 ∧ s1.registers 0 = 5) := by
  refine ⟨?_, ?_, ?_⟩
  · obtain ⟨s1, hc, h1, h2, _⟩ :=
      (keypress_wait_machine { chip8Init with
          memory := writeListAt chip8Init.memory [0xF0, 0x0A] 0x200 }
        ⟨0, by decide⟩ (by decide) (by decide) (by decide)).1
        (by decide) (by decide)
    exact ⟨s1, hc, h1, h2⟩
  · obtain ⟨s1, hc, h1, h2, _⟩ :=
      (keypress_wait_machine { chip8Init with
          memory := writeListAt chip8Init.memory [0xF0, 0x0A] 0x200,
          keyboard := fun k => k == 5 }
        ⟨0, by decide⟩ (by decide) (by decide) (by decide)).2.1
        5 (by decide) (by decide) (by decide) (by decide)
    exact ⟨s1, hc, h1, h2⟩
  · obtain ⟨s1, hc, h1, h2, h3, _⟩ :=
      (keypress_wait_machine { chip8Init with
          memory := writeListAt chip8Init.memory [0xF0, 0x0A] 0x200,
          pressedKey := (5 : Int) }
        ⟨0, by decide⟩ (by decide) (by decide) (by decide)).2.2
        5 (by decide) (by decide) (by decide)
    exact ⟨s1, hc, h1, h2, h3⟩

/-! ## C9: deterministic execution -/

/-- Claim C9: the RNG state is the fixed literal 42 after construction, and two
freshly constructed interpreters holding the same loaded memory produce
identical results on any shared sequence of opcodes and per-step keyboard
states (execution is a pure function of the loaded memory and the input
sequence). -/
theorem deterministic_execution :
    chip8Init.rng = 42 ∧
    ∀ (mem : Nat → Nat) (steps : List (Nat × (Nat → Bool))) (s1 s2 : Chip8),
      s1 = { chip8Init with memory := mem } →
      s2 = { chip8Init with memory := mem } →
      runSteps s1 steps = runSteps s2 steps :=
  ⟨rfl, fun _ _ _ _ h1 h2 => by rw [h1, h2]⟩

/-- Witness for claim C9: the theorem applied to a concrete RND opcode sequence. -/
theorem deterministic_execution_witness :
    runSteps { chip8Init with memory := fun _ => 0 }
      [(0xC0FF, fun _ => false), (0xC1FF, fun _ => false)] =
    runSteps { chip8Init with memory := fun _ => 0 }
      [(0xC0FF, fun _ => false), (0xC1FF, fun _ => false)] :=
  deterministic_execution.2 (fun _ => 0) _ _ _ rfl rfl

/-! ## DRW loop lemmas (for C3 and C4) -/

theorem drwIdx_ne_col (xPos yPos row : Nat) {b c : Nat} (hb : b < 8) (hc : c < 8)
    (hne : b ≠ c) : drwIdx xPos yPos row b ≠ drwIdx xPos yPos row c := by
  unfold drwIdx
  omega

theorem drwIdx_ne_row (xPos yPos : Nat) {r q b c : Nat} (hr : r < 16) (hq : q < 16)
    (hne : r ≠ q) (hb : b < 8) (hc : c < 8) :
    drwIdx xPos yPos r b ≠ drwIdx xPos yPos q c := by
  unfold drwIdx
  omega

theorem drwBitStep_skip (xPos yPos row sprite bit : Nat) (s : Chip8)
    (h : ¬ sprite &&& (0x80 >>> bit) ≠ 0) :
    drwBitStep xPos yPos row sprite bit s = s := by
  unfold drwBitStep
  exact if_neg h

theorem drwBitStep_fb_ne (xPos yPos row sprite bit : Nat) (s : Chip8) (j : Nat)
    (hj : j ≠ drwIdx xPos yPos row bit) :
    (drwBitStep xPos yPos row sprite bit s).framebuffer j = s.framebuffer j := by
  unfold drwBitStep
  split
  · exact updFn_ne _ _ _ hj
  · rfl

theorem drwBitStep_fb_hit (xPos yPos row sprite bit : Nat) (s : Chip8)
    (hbit : sprite &&& (0x80 >>> bit) ≠ 0) :
    (drwBitStep xPos yPos row sprite bit s).framebuffer (drwIdx xPos yPos row bit) =
      s.framebuffer (drwIdx xPos yPos row bit) ^^^ 1 := by
  unfold drwBitStep
  rw [if_pos hbit]
  exact updFn_same _ _ _

theorem drwBitStep_reg15 (xPos yPos row sprite bit : Nat) (s : Chip8) :
    (drwBitStep xPos yPos row sprite bit s).registers 15 =
      if sprite &&& (0x80 >>> bit) ≠ 0 ∧
          s.framebuffer (drwIdx xPos yPos row bit) ≠ 0 then 1
      else s.registers 15 := by
  unfold drwBitStep
  by_cases h1 : sprite &&& (0x80 >>> bit) ≠ 0
  · rw [if_pos h1]
    show (if s.framebuffer (drwIdx xPos yPos row bit) ≠ 0 then updFn s.registers 15 1 else s.registers) 15 = _
    by_cases h2 : s.framebuffer (drwIdx xPos yPos row bit) ≠ 0
    · rw [if_pos h2, updFn_same, if_pos ⟨h1, h2⟩]
    · rw [if_neg h2, if_neg (fun hc => h2 hc.2)]
  · rw [if_neg h1, if_neg (fun hc => h1 hc.1)]

theorem drwBitStep_reg_ne15 (xPos yPos row sprite bit : Nat) (s : Chip8) (j : Nat)
    (hj : j ≠ 15) :
    (drwBitStep xPos yPos row sprite bit s).registers j = s.registers j := by
  unfold drwBitStep
  split
  · show (if s.framebuffer (drwIdx xPos yPos row bit) ≠ 0 then updFn s.registers 15 1 else s.registers) j = s.registers j
    split
    · exact updFn_ne _ _ _ hj
    · rfl
  · rfl

theorem drwBitStep_memory (xPos yPos row sprite bit : Nat) (s : Chip8) :
    (drwBitStep xPos yPos row sprite bit s).memory = s.memory := by
  unfold drwBitStep
  split <;> rfl

theorem drwBitStep_I (xPos yPos row sprite bit : Nat) (s : Chip8) :
    (drwBitStep xPos yPos row sprite bit s).I = s.I := by
  unfold drwBitStep
  split <;> rfl

theorem drwBits_fb_ne (xPos yPos row sprite : Nat) :
    ∀ (n : Nat) (s : Chip8) (j : Nat),
    (∀ b, b < n → sprite &&& (0x80 >>> b) ≠ 0 → j ≠ drwIdx xPos yPos row b) →
    (drwBits xPos yPos row sprite n s).framebuffer j = s.framebuffer j := by
  intro n
  induction n with
  | zero => intro s j _; rfl
  | succ n ih =>
    intro s j hj
    show (drwBitStep xPos yPos row sprite n (drwBits xPos yPos row sprite n s)).framebuffer j = _
    by_cases hb : sprite &&& (0x80 >>> n) ≠ 0
    · rw [drwBitStep_fb_ne _ _ _ _ _ _ _ (hj n (by omega) hb),
        ih s j (fun b hb2 hs => hj b (by omega) hs)]
    · rw [drwBitStep_skip _ _ _ _ _ _ hb, ih s j (fun b hb2 hs => hj b (by omega) hs)]

theorem drwBits_fb_hit (xPos yPos row sprite : Nat) :
    ∀ (n : Nat) (s : Chip8) (b : Nat), n ≤ 8 → b < n →
    sprite &&& (0x80 >>> b) ≠ 0 →
    (drwBits xPos yPos row sprite n s).framebuffer (drwIdx xPos yPos row b) =
      s.framebuffer (drwIdx xPos yPos row b) ^^^ 1 := by
  intro n
  induction n with
  | zero => intro s b _ hb; omega
  | succ n ih =>
    intro s b hn hb hbit
    show (drwBitStep xPos yPos row sprite n (drwBits xPos yPos row sprite n s)).framebuffer (drwIdx xPos yPos row b) = _
    by_cases hbn : b = n
    · subst hbn
      rw [drwBitStep_fb_hit _ _ _ _ _ _ hbit,
        drwBits_fb_ne xPos yPos row sprite b s (drwIdx xPos yPos row b)
          (fun c hc hsc => drwIdx_ne_col xPos yPos row (by omega) (by omega) (by omega))]
    · by_cases hsn : sprite &&& (0x80 >>> n) ≠ 0
      · rw [drwBitStep_fb_ne _ _ _ _ _ _ _
          (drwIdx_ne_col xPos yPos row (by omega) (by omega) hbn),
          ih s b (by omega) (by omega) hbit]
      · rw [drwBitStep_skip _ _ _ _ _ _ hsn, ih s b (by omega) (by omega) hbit]

theorem drwBits_reg15 (xPos yPos row sprite : Nat) (s : Chip8) :
    ∀ n, n ≤ 8 →
    (drwBits xPos yPos row sprite n s).registers 15 =
      if ∃ b, b < n ∧ sprite &&& (0x80 >>> b) ≠ 0 ∧
          s.framebuffer (drwIdx xPos yPos row b) ≠ 0 then 1
      else s.registers 15 := by
  intro n
  induction n with
  | zero =>
    intro _
    rw [if_neg (fun ⟨b, hb, _⟩ => by omega)]
    rfl
  | succ n ih =>
    intro hn
    show (drwBitStep xPos yPos row sprite n (drwBits xPos yPos row sprite n s)).registers 15 = _
    rw [drwBitStep_reg15]
    have hfb : (drwBits xPos yPos row sprite n s).framebuffer (drwIdx xPos yPos row n) =
        s.framebuffer (drwIdx xPos yPos row n) :=
      drwBits_fb_ne xPos yPos row sprite n s _
        (fun c hc hsc => drwIdx_ne_col xPos yPos row (by omega) (by omega) (by omega))
    rw [hfb, ih (by omega)]
    by_cases h1 : sprite &&& (0x80 >>> n) ≠ 0 ∧ s.framebuffer (drwIdx xPos yPos row n) ≠ 0
    · rw [if_pos h1, if_pos ⟨n, by omega, h1.1, h1.2⟩]
    · rw [if_neg h1]
      by_cases h2 : ∃ b, b < n ∧ sprite &&& (0x80 >>> b) ≠ 0 ∧
          s.framebuffer (drwIdx xPos yPos row b) ≠ 0
      · obtain ⟨b, hb, hs1, hs2⟩ := h2
        rw [if_pos ⟨b, hb, hs1, hs2⟩, if_pos ⟨b, by omega, hs1, hs2⟩]
      · rw [if_neg h2, if_neg (fun ⟨b, hb, hs1, hs2⟩ => by
          by_cases hbn : b = n
          · exact h1 ⟨hbn ▸ hs1, hbn ▸ hs2⟩
          · exact h2 ⟨b, by omega, hs1, hs2⟩)]

theorem drwBits_reg_ne15 (xPos yPos row sprite : Nat) :
    ∀ (n : Nat) (s : Chip8) (j : Nat), j ≠ 15 →
    (drwBits xPos yPos row sprite n s).registers j = s.registers j := by
  intro n
  induction n with
  | zero => intro s j _; rfl
  | succ n ih =>
    intro s j hj
    show (drwBitStep xPos yPos row sprite n (drwBits xPos yPos row sprite n s)).registers j = _
    rw [drwBitStep_reg_ne15 _ _ _ _ _ _ _ hj, ih s j hj]

theorem drwBits_memory (xPos yPos row sprite : Nat) :
    ∀ (n : Nat) (s : Chip8), (drwBits xPos yPos row sprite n s).memory = s.memory := by
  intro n
  induction n with
  | zero => intro s; rfl
  | succ n ih =>
    intro s
    show (drwBitStep xPos yPos row sprite n (drwBits xPos yPos row sprite n s)).memory = _
    rw [drwBitStep_memory, ih]

theorem drwBits_I (xPos yPos row sprite : Nat) :
    ∀ (n : Nat) (s : Chip8), (drwBits xPos yPos row sprite n s).I = s.I := by
  intro n
  induction n with
  | zero => intro s; rfl
  | succ n ih =>
    intro s
    show (drwBitStep xPos yPos row sprite n (drwBits xPos yPos row sprite n s)).I = _
    rw [drwBitStep_I, ih]

theorem memByte_congr {t s : Chip8} (h : t.memory = s.memory) (a : Nat) :
    memByte t a = memByte s a := by
  unfold memByte
  rw [h]

theorem drwRows_memory (xPos yPos : Nat) :
    ∀ (n : Nat) (s : Chip8), (drwRows xPos yPos n s).memory = s.memory := by
  intro n
  induction n with
  | zero => intro s; rfl
  | succ n ih =>
    intro s
    show (drwBits xPos yPos n _ 8 (drwRows xPos yPos n s)).memory = _
    rw [drwBits_memory, ih]

theorem drwRows_I (xPos yPos : Nat) :
    ∀ (n : Nat) (s : Chip8), (drwRows xPos yPos n s).I = s.I := by
  intro n
  induction n with
  | zero => intro s; rfl
  | succ n ih =>
    intro s
    show (drwBits xPos yPos n _ 8 (drwRows xPos yPos n s)).I = _
    rw [drwBits_I, ih]

theorem drwRows_reg_ne15 (xPos yPos : Nat) :
    ∀ (n : Nat) (s : Chip8) (j : Nat), j ≠ 15 →
    (drwRows xPos yPos n s).registers j = s.registers j := by
  intro n
  induction n with
  | zero => intro s j _; rfl
  | succ n ih =>
    intro s j hj
    show (drwBits xPos yPos n _ 8 (drwRows xPos yPos n s)).registers j = _
    rw [drwBits_reg_ne15 _ _ _ _ _ _ _ hj, ih s j hj]

theorem drwRows_sprite (xPos yPos : Nat) (n : Nat) (s : Chip8) :
    memByte (drwRows xPos yPos n s) ((drwRows xPos yPos n s).I + n) =
      memByte s (s.I + n) := by
  rw [drwRows_I, memByte_congr (drwRows_memory xPos yPos n s)]

theorem drwRows_fb_ne (xPos yPos : Nat) :
    ∀ (n : Nat) (s : Chip8) (j : Nat),
    (∀ r b, r < n → b < 8 → memByte s (s.I + r) &&& (0x80 >>> b) ≠ 0 →
      j ≠ drwIdx xPos yPos r b) →
    (drwRows xPos yPos n s).framebuffer j = s.framebuffer j := by
  intro n
  induction n with
  | zero => intro s j _; rfl
  | succ n ih =>
    intro s j hj
    show (drwBits xPos yPos n
      (memByte (drwRows xPos yPos n s) ((drwRows xPos yPos n s).I + n)) 8
      (drwRows xPos yPos n s)).framebuffer j = _
    rw [drwRows_sprite]
    rw [drwBits_fb_ne _ _ _ _ 8 _ j (fun b hb hs => hj n b (by omega) hb hs),
      ih s j (fun r b hr hb hs => hj r b (by omega) hb hs)]

theorem drwRows_fb_hit (xPos yPos : Nat) :
    ∀ (n : Nat) (s : Chip8) (r b : Nat), n ≤ 16 → r < n → b < 8 →
    memByte s (s.I + r) &&& (0x80 >>> b) ≠ 0 →
    (drwRows xPos yPos n s).framebuffer (drwIdx xPos yPos r b) =
      s.framebuffer (drwIdx xPos yPos r b) ^^^ 1 := by
  intro n
  induction n with
  | zero => intro s r b _ hr; omega
  | succ n ih =>
    intro s r b hn hr hb hbit
    show (drwBits xPos yPos n
      (memByte (drwRows xPos yPos n s) ((drwRows xPos yPos n s).I + n)) 8
      (drwRows xPos yPos n s)).framebuffer (drwIdx xPos yPos r b) = _
    rw [drwRows_sprite]
    by_cases hrn : r = n
    · subst hrn
      rw [drwBits_fb_hit _ _ _ _ 8 _ b (by omega) hb hbit,
        drwRows_fb_ne xPos yPos r s _
          (fun q c hq hc hsc => drwIdx_ne_row xPos yPos (by omega) (by omega)
            (by omega) hb hc)]
    · rw [drwBits_fb_ne _ _ _ _ 8 _ _
        (fun c hc hsc => drwIdx_ne_row xPos yPos (by omega) (by omega) hrn hb hc),
        ih s r b (by omega) (by omega) hb hbit]

theorem opDXYN_decode : ∀ X Y N : Fin 16,
    (0xD000 + X.val * 256 + Y.val * 16 + N.val) &&& 0xF000 = 0xD000 ∧
    ((0xD000 + X.val * 256 + Y.val * 16 + N.val) &&& 0x0F00) >>> 8 = X.val ∧
    ((0xD000 + X.val * 256 + Y.val * 16 + N.val) &&& 0x00F0) >>> 4 = Y.val ∧
    (0xD000 + X.val * 256 + Y.val * 16 + N.val) &&& 0x000F = N.val ∧
    (0xD000 + X.val * 256 + Y.val * 16 + N.val) &&& 0xF00F = 0xD000 + N.val := by
  decide

/-! ## C3: toroidal per-pixel wrap of DRW -/

/-- Claim C3: executing DRW Vx,Vy,N always succeeds, and the only framebuffer
cells it can change are exactly the cells `drwIdx x0 y0 r b =
((y0 + r) % 32) * 64 + (x0 + b) % 64` for a set sprite bit `b` of row
`r` — each pixel wraps toroidally and independently, never clipped; a
set sprite bit XORs precisely its wrapped destination cell. -/
theorem drw_toroidal_wrap (s : Chip8) (X Y N : Fin 16) :
    ∃ s1, execute s (0xD000 + X.val * 256 + Y.val * 16 + N.val) = some s1 ∧
      (∀ j, (∀ r b, r < N.val → b < 8 →
          memByte s (s.I + r) &&& (0x80 >>> b) ≠ 0 →
          j ≠ drwIdx (s.registers X.val) (s.registers Y.val) r b) →
        s1.framebuffer j = s.framebuffer j) ∧
      (∀ r b, r < N.val → b < 8 →
        memByte s (s.I + r) &&& (0x80 >>> b) ≠ 0 →
        s1.framebuffer (drwIdx (s.registers X.val) (s.registers Y.val) r b) =
          s.framebuffer (drwIdx (s.registers X.val) (s.registers Y.val) r b) ^^^ 1) := by
  obtain ⟨hF000, hfx, hfy, hfN, hF00F⟩ := opDXYN_decode X Y N
  have hNlt := N.isLt
  unfold execute
  rw [if_neg (fun h => by rw [h] at hF000; exact absurd hF000 (by decide)),
      if_neg (fun h => by rw [h] at hF000; exact absurd hF000 (by decide)),
      if_neg (fun h => by rw [hF000] at h; exact absurd h (by decide)),
      if_neg (fun h => by rw [hF000] at h; exact absurd h (by decide)),
      if_neg (fun h => by rw [hF000] at h; exact absurd h (by decide)),
      if_neg (fun h => by rw [hF000] at h; exact absurd h (by decide)),
      if_neg (fun h => by rw [hF000] at h; exact absurd h (by decide)),
      if_neg (fun h => by rw [hF00F] at h; omega),
      if_neg (fun h => by rw [hF000] at h; exact absurd h (by decide)),
      if_neg (fun h => by rw [hF000] at h; exact absurd h (by decide)),
      if_neg (fun h => by rw [hF00F] at h; omega),
      if_neg (fun h => by rw [hF00F] at h; omega),
      if_neg (fun h => by rw [hF00F] at h; omega),
      if_neg (fun h => by rw [hF00F] at h; omega),
      if_neg (fun h => by rw [hF00F] at h; omega),
      if_neg (fun h => by rw [hF00F] at h; omega),
      if_neg (fun h => by rw [hF00F] at h; omega),
      if_neg (fun h => by rw [hF00F] at h; omega),
      if_neg (fun h => by rw [hF00F] at h; omega),
      if_neg (fun h => by rw [hF00F] at h; omega),
      if_neg (fun h => by rw [hF000] at h; exact absurd h (by decide)),
      if_neg (fun h => by rw [hF000] at h; exact absurd h (by decide)),
      if_neg (fun h => by rw [hF000] at h; exact absurd h (by decide)),
      if_pos hF000, hfx, hfy, hfN]
  refine ⟨_, rfl, ?_, ?_⟩
  · intro j hj
    exact drwRows_fb_ne (s.registers X.val) (s.registers Y.val) N.val
      { s with registers := updFn s.registers 15 0 } j hj
  · intro r b hr hb hbit
    exact drwRows_fb_hit (s.registers X.val) (s.registers Y.val) N.val
      { s with registers := updFn s.registers 15 0 } r b (by omega) hr hb hbit

/-- Witness for claim C3: a sprite of four 0xFF rows drawn at Vx = 60, Vy = 30
wraps: sprite row 2, bit 4 lands on framebuffer cell 0 (column 60+4-64,
row 30+2-32) and is set; an untouched cell such as 100 stays clear. -/
theorem drw_toroidal_wrap_witness :
    drwIdx 60 30 2 4 = 0 ∧
    ∃ s1, execute { chip8Init with
        registers := updFn (updFn chip8Init.registers 0 60) 1 30,
        I := 0x300,
        memory := writeListAt chip8Init.memory [0xFF, 0xFF, 0xFF, 0xFF] 0x300 }
      (0xD000 + 0 * 256 + 1 * 16 + 4) = some s1 ∧
      s1.framebuffer 0 = 1 ∧ s1.framebuffer 100 = 0 := by
  obtain ⟨s1, hE, hA, hB⟩ := drw_toroidal_wrap { chip8Init with
      registers := updFn (updFn chip8Init.registers 0 60) 1 30,
      I := 0x300,
      memory := writeListAt chip8Init.memory [0xFF, 0xFF, 0xFF, 0xFF] 0x300 }
    ⟨0, by decide⟩ ⟨1, by decide⟩ ⟨4, by decide⟩
  refine ⟨by decide, s1, hE, ?_, ?_⟩
  · exact hB 2 4 (by decide) (by decide) (by decide)
  · exact hA 100 (by
      intro r b hr hb _
      show (100 : Nat) ≠ drwIdx 60 30 r b
      unfold drwIdx
      omega)

/-! ## C4: double draw is an involution with collision reporting -/

theorem drwRows_one (xPos yPos : Nat) (t : Chip8) :
    drwRows xPos yPos 1 t = drwBits xPos yPos 0 (memByte t (t.I + 0)) 8 t := rfl

theorem ff_bit_set : ∀ bb : Fin 8, 0xFF &&& (0x80 >>> bb.val) ≠ 0 := by decide

theorem drw_height1 (s : Chip8) (X Y : Fin 16) (hspr : memByte s s.I = 0xFF) :
    ∃ s1, execute s (0xD000 + X.val * 256 + Y.val * 16 + 1) = some s1 ∧
      (∀ b, b < 8 →
        s1.framebuffer (drwIdx (s.registers X.val) (s.registers Y.val) 0 b) =
          s.framebuffer (drwIdx (s.registers X.val) (s.registers Y.val) 0 b) ^^^ 1) ∧
      ((∃ b, b < 8 ∧
          s.framebuffer (drwIdx (s.registers X.val) (s.registers Y.val) 0 b) ≠ 0) →
        s1.registers 15 = 1) ∧
      ((∀ b, b < 8 →
          s.framebuffer (drwIdx (s.registers X.val) (s.registers Y.val) 0 b) = 0) →
        s1.registers 15 = 0) ∧
      (∀ j, j ≠ 15 → s1.registers j = s.registers j) ∧
      s1.memory = s.memory ∧ s1.I = s.I := by
  obtain ⟨hF000, hfx, hfy, hfN, hF00F⟩ := opDXYN_decode X Y ⟨1, by decide⟩
  have hF000a : (0xD000 + X.val * 256 + Y.val * 16 + 1) &&& 0xF000 = 0xD000 := hF000
  have hfxa : ((0xD000 + X.val * 256 + Y.val * 16 + 1) &&& 0x0F00) >>> 8 = X.val := hfx
  have hfya : ((0xD000 + X.val * 256 + Y.val * 16 + 1) &&& 0x00F0) >>> 4 = Y.val := hfy
  have hfNa : (0xD000 + X.val * 256 + Y.val * 16 + 1) &&& 0x000F = 1 := hfN
  have hF00Fa : (0xD000 + X.val * 256 + Y.val * 16 + 1) &&& 0xF00F = 0xD001 := hF00F
  have hspr0 : memByte { s with registers := updFn s.registers 15 0 }
      ({ s with registers := updFn s.registers 15 0 }.I + 0) = 0xFF := hspr
  unfold execute
  rw [if_neg (fun h => by rw [h] at hF000a; exact absurd hF000a (by decide)),
      if_neg (fun h => by rw [h] at hF000a; exact absurd hF000a (by decide)),
      if_neg (fun h => by rw [hF000a] at h; exact absurd h (by decide)),
      if_neg (fun h => by rw [hF000a] at h; exact absurd h (by decide)),
      if_neg (fun h => by rw [hF000a] at h; exact absurd h (by decide)),
      if_neg (fun h => by rw [hF000a] at h; exact absurd h (by decide)),
      if_neg (fun h => by rw [hF000a] at h; exact absurd h (by decide)),
      if_neg (fun h => by rw [hF00Fa] at h; exact absurd h (by decide)),
      if_neg (fun h => by rw [hF000a] at h; exact absurd h (by decide)),
      if_neg (fun h => by rw [hF000a] at h; exact absurd h (by decide)),
      if_neg (fun h => by rw [hF00Fa] at h; exact absurd h (by decide)),
      if_neg (fun h => by rw [hF00Fa] at h; exact absurd h (by decide)),
      if_neg (fun h => by rw [hF00Fa] at h; exact absurd h (by decide)),
      if_neg (fun h => by rw [hF00Fa] at h; exact absurd h (by decide)),
      if_neg (fun h => by rw [hF00Fa] at h; exact absurd h (by decide)),
      if_neg (fun h => by rw [hF00Fa] at h; exact absurd h (by decide)),
      if_neg (fun h => by rw [hF00Fa] at h; exact absurd h (by decide)),
      if_neg (fun h => by rw [hF00Fa] at h; exact absurd h (by decide)),
      if_neg (fun h => by rw [hF00Fa] at h; exact absurd h (by decide)),
      if_neg (fun h => by rw [hF00Fa] at h; exact absurd h (by decide)),
      if_neg (fun h => by rw [hF000a] at h; exact absurd h (by decide)),
      if_neg (fun h => by rw [hF000a] at h; exact absurd h (by decide)),
      if_neg (fun h => by rw [hF000a] at h; exact absurd h (by decide)),
      if_pos hF000a, hfxa, hfya, hfNa, drwRows_one, hspr0]
  refine ⟨_, rfl, ?_, ?_, ?_, ?_, ?_, ?_⟩
  · intro b hb
    exact drwBits_fb_hit (s.registers X.val) (s.registers Y.val) 0 0xFF 8
      { s with registers := updFn s.registers 15 0 } b (by omega) hb (ff_bit_set ⟨b, hb⟩)
  · intro hex
    obtain ⟨b, hb, hne⟩ := hex
    show (drwBits (s.registers X.val) (s.registers Y.val) 0 0xFF 8
      { s with registers := updFn s.registers 15 0 }).registers 15 = _
    rw [drwBits_reg15 (s.registers X.val) (s.registers Y.val) 0 0xFF
      { s with registers := updFn s.registers 15 0 } 8 (by omega),
      if_pos ⟨b, hb, ff_bit_set ⟨b, hb⟩, hne⟩]
  · intro hall
    show (drwBits (s.registers X.val) (s.registers Y.val) 0 0xFF 8
      { s with registers := updFn s.registers 15 0 }).registers 15 = _
    rw [drwBits_reg15 (s.registers X.val) (s.registers Y.val) 0 0xFF
      { s with registers := updFn s.registers 15 0 } 8 (by omega),
      if_neg (fun hc => hc.elim (fun b hbb => hbb.2.2 (hall b hbb.1)))]
    rfl
  · intro j hj
    show (drwBits (s.registers X.val) (s.registers Y.val) 0 0xFF 8
      { s with registers := updFn s.registers 15 0 }).registers j = _
    rw [drwBits_reg_ne15 _ _ _ _ _ _ _ hj]
    exact updFn_ne _ _ _ hj
  · exact drwBits_memory (s.registers X.val) (s.registers Y.val) 0 0xFF 8
      { s with registers := updFn s.registers 15 0 }
  · exact drwBits_I (s.registers X.val) (s.registers Y.val) 0 0xFF 8
      { s with registers := updFn s.registers 15 0 }

/-- Claim C4: with `I` pointing at the single byte 0xFF and the 8 wrapped
target pixels clear, drawing DRW Vx,Vy,1 twice at the same coordinates
(the coordinate registers are not VF, so the first draw leaves them
unchanged) first sets the 8 pixels with `VF = 0`, then clears them back
with `VF = 1`. -/
theorem drw_double_draw (s : Chip8) (X Y : Fin 16)
    (hX : X.val ≠ 15) (hY : Y.val ≠ 15)
    (hspr : memByte s s.I = 0xFF)
    (hclear : ∀ b, b < 8 →
      s.framebuffer (drwIdx (s.registers X.val) (s.registers Y.val) 0 b) = 0) :
    ∃ s1, execute s (0xD000 + X.val * 256 + Y.val * 16 + 1) = some s1 ∧
      s1.registers 15 = 0 ∧
      (∀ b, b < 8 →
        s1.framebuffer (drwIdx (s.registers X.val) (s.registers Y.val) 0 b) = 1) ∧
      ∃ s2, execute s1 (0xD000 + X.val * 256 + Y.val * 16 + 1) = some s2 ∧
        s2.registers 15 = 1 ∧
        (∀ b, b < 8 →
          s2.framebuffer (drwIdx (s.registers X.val) (s.registers Y.val) 0 b) = 0) := by
  obtain ⟨s1, hE1, hfb1, hvfpos1, hvfzero1, hreg1, hmem1, hI1⟩ := drw_height1 s X Y hspr
  have hx1 : s1.registers X.val = s.registers X.val := hreg1 X.val hX
  have hy1 : s1.registers Y.val = s.registers Y.val := hreg1 Y.val hY
  refine ⟨s1, hE1, hvfzero1 hclear, ?_, ?_⟩
  · intro b hb
    rw [hfb1 b hb, hclear b hb]
    decide
  · have hspr1 : memByte s1 s1.I = 0xFF := by
      rw [hI1, memByte_congr hmem1]
      exact hspr
    obtain ⟨s2, hE2, hfb2, hvfpos2, hvfzero2, hreg2, hmem2, hI2⟩ :=
      drw_height1 s1 X Y hspr1
    refine ⟨s2, hE2, ?_, ?_⟩
    · refine hvfpos2 ⟨0, by omega, ?_⟩
      rw [hx1, hy1, hfb1 0 (by omega), hclear 0 (by omega)]
      decide
    · intro b hb
      have h := hfb2 b hb
      rw [hx1, hy1] at h
      rw [h, hfb1 b hb, hclear b hb]
      decide

/-- Witness for claim C4: the theorem applied at a concrete state with V0 = 10,
V1 = 5, I pointing at a 0xFF byte, and a clear framebuffer. -/
theorem drw_double_draw_witness :
    ∃ s1, execute { chip8Init with
        registers := updFn (updFn chip8Init.registers 0 10) 1 5,
        I := 0x300,
        memory := writeListAt chip8Init.memory [0xFF] 0x300 }
      (0xD000 + 0 * 256 + 1 * 16 + 1) = some s1 ∧
      s1.registers 15 = 0 ∧ s1.framebuffer (drwIdx 10 5 0 0) = 1 ∧
      ∃ s2, execute s1 (0xD000 + 0 * 256 + 1 * 16 + 1) = some s2 ∧
        s2.registers 15 = 1 ∧ s2.framebuffer (drwIdx 10 5 0 0) = 0 := by
  obtain ⟨s1, hE1, hv1, hf1, s2, hE2, hv2, hf2⟩ :=
    drw_double_draw { chip8Init with
        registers := updFn (updFn chip8Init.registers 0 10) 1 5,
        I := 0x300,
        memory := writeListAt chip8Init.memory [0xFF] 0x300 }
      ⟨0, by decide⟩ ⟨1, by decide⟩ (by decide) (by decide) (by decide)
      (fun b hb => rfl)
  exact ⟨s1, hE1, hv1, hf1 0 (by omega), s2, hE2, hv2, hf2 0 (by omega)⟩

end Chip8Emu
